import Mathlib

/-!
# simple_container: a shallow embedding of `simple_container.c`

The program launches one command inside fresh PID, mount, UTS and IPC
namespaces.  Every call that the C code makes to the operating system is
recorded as an `Event`; the answers of the operating system are taken from an
explicit environment, so that each run is a pure function of the argument
vector and of that environment.
-/

namespace SimpleContainer

/-! ## Constants of the C library and of the Linux headers -/

/-- Value of `EXIT_SUCCESS` in `<stdlib.h>`. -/
def EXIT_SUCCESS : Int := 0

/-- Value of `EXIT_FAILURE` in `<stdlib.h>`. -/
def EXIT_FAILURE : Int := 1

/-- Value of `MS_REC` in `<sys/mount.h>`. -/
def MS_REC : Nat := 16384

/-- Value of `MS_PRIVATE` in `<sys/mount.h>` (`1 << 18`). -/
def MS_PRIVATE : Nat := 262144

/-- Value of `CLONE_NEWNS` in `<sched.h>`. -/
def CLONE_NEWNS : Nat := 0x00020000

/-- Value of `CLONE_NEWUTS` in `<sched.h>`. -/
def CLONE_NEWUTS : Nat := 0x04000000

/-- Value of `CLONE_NEWIPC` in `<sched.h>`. -/
def CLONE_NEWIPC : Nat := 0x08000000

/-- Value of `CLONE_NEWPID` in `<sched.h>`. -/
def CLONE_NEWPID : Nat := 0x20000000

/-- Value of `SIGCHLD` in `<signal.h>` on Linux. -/
def SIGCHLD : Nat := 17

/-- The macro `STACK_SIZE (1024 * 1024)`. -/
def STACK_SIZE : Nat := 1024 * 1024

/-- The macro `S_ISDIR(m)`: `(m & S_IFMT) == S_IFDIR`. -/
def S_ISDIR (mode : Nat) : Bool := (mode &&& 0o170000) == 0o040000

/-- The macro `WEXITSTATUS(status)`: `(status & 0xff00) >> 8`. -/
def WEXITSTATUS (status : Nat) : Nat := (status &&& 0xff00) >>> 8

/-- The wait status word the kernel stores for a process that terminated by
`exit(code)`: `(code & 0xff) << 8`. -/
def W_EXITCODE (code : Int) : Nat := (code % 256).toNat <<< 8

/-! ## Data model -/

/-- The C `struct container_config`; `hostname` is the only field that is
still `NULL` when the structure is used. -/
structure container_config where
  hostname : Option String
  rootfs_path : String
  command : String
  args : List String
deriving DecidableEq

/-- An argument of a `printf`-style call: `%s` or `%d`. -/
inductive Arg
  | s (v : String)
  | d (v : Int)
deriving DecidableEq

/-- One observable action of a process: a call into the operating system or
the C library, or a read of one cell of `argv`. -/
inductive Event
  | mount (source : Option String) (target : String) (fstype : Option String)
      (flags : Nat) (data : Option String)
  | chroot (path : String)
  | chdir (path : String)
  | sethostname (name : String) (len : Nat)
  | execvp (file : String) (argv : List String)
  | getuid
  | stat (path : String)
  | malloc (size : Nat)
  | clone (stack_top : Nat) (flags : Nat) (arg : container_config)
  | waitpid (pid : Int)
  | free (ptr : Nat)
  | argv_read (i : Nat)
  | printf (fmt : String) (args : List Arg)
  | fprintf_stderr (fmt : String) (args : List Arg)
  | perror (msg : String)
deriving DecidableEq

/-- Diagnostics: writes to `stdout` and `stderr`. -/
def Event.is_output : Event → Bool
  | .printf _ _ => true
  | .fprintf_stderr _ _ => true
  | .perror _ => true
  | _ => false

/-- Reads of a cell of `argv`. -/
def Event.is_argv_read : Event → Bool
  | .argv_read _ => true
  | _ => false

/-- Calls into the operating system or the allocator: every event that is
neither a diagnostic nor a read of `argv`. -/
def Event.is_call (e : Event) : Bool := !e.is_output && !e.is_argv_read

/-- The calls of a trace, in order. -/
def calls (tr : List Event) : List Event := tr.filter Event.is_call

/-! ## The child: `setup_container` and `child_process` -/

/-- What the operating system answers inside the child. -/
structure ChildEnv where
  /-- result of `getpid()` -/
  pid : Int
  /-- return value of each of `mount`, `chroot`, `chdir`, `sethostname` -/
  ret : Event → Int
  /-- outcome of `execvp`: `none` when it replaces the process image and never
  returns, `some r` when it returns `r` -/
  execvp : Option Int
  /-- exit status with which the launched command terminates once started -/
  command_status : Nat

/-- The C function `setup_container`: the events it produces and the value it
returns. -/
def setup_container (env : ChildEnv) (config : container_config) : List Event × Int :=
  let m_root := Event.mount none "/" none (MS_PRIVATE ||| MS_REC) none
  if env.ret m_root < 0 then
    ([m_root, .perror "Failed to make root mount private"], -1)
  else
  let c_root := Event.chroot config.rootfs_path
  if env.ret c_root < 0 then
    ([m_root, c_root, .perror "Failed to chroot"], -1)
  else
  let c_dir := Event.chdir "/"
  if env.ret c_dir < 0 then
    ([m_root, c_root, c_dir, .perror "Failed to change directory to /"], -1)
  else
  let host : List Event :=
    match config.hostname with
    | some h => [Event.sethostname h h.utf8ByteSize]
    | none => []
  if (match config.hostname with
      | some h => decide (env.ret (Event.sethostname h h.utf8ByteSize) < 0)
      | none => false) then
    ([m_root, c_root, c_dir] ++ host ++ [.perror "Failed to set hostname"], -1)
  else
  let m_proc := Event.mount (some "proc") "/proc" (some "proc") 0 none
  if env.ret m_proc < 0 then
    ([m_root, c_root, c_dir] ++ host ++ [m_proc, .perror "Failed to mount /proc"], -1)
  else
  let m_sys := Event.mount (some "sysfs") "/sys" (some "sysfs") 0 none
  if env.ret m_sys < 0 then
    ([m_root, c_root, c_dir] ++ host ++ [m_proc, m_sys, .perror "Failed to mount /sys"], -1)
  else
  let m_tmp := Event.mount (some "tmpfs") "/tmp" (some "tmpfs") 0 (some "size=100m")
  if env.ret m_tmp < 0 then
    ([m_root, c_root, c_dir] ++ host ++ [m_proc, m_sys, m_tmp, .perror "Failed to mount /tmp"], -1)
  else
    ([m_root, c_root, c_dir] ++ host ++ [m_proc, m_sys, m_tmp], 0)

/-- How the child process ends. -/
inductive ChildEnd
  /-- the entry point called `exit(status)` -/
  | exit (status : Int)
  /-- the image was replaced by `execvp`; the command later terminated with
  `status` -/
  | exec (status : Nat)
  /-- the function `child_process` returned `v` to `clone` -/
  | ret (v : Int)
deriving DecidableEq

/-- Exit status of the child process. -/
def ChildEnd.status : ChildEnd → Int
  | .exit s => s
  | .exec s => s
  | .ret v => v

/-- A run of the child process. -/
structure ChildRun where
  trace : List Event
  fin : ChildEnd
deriving DecidableEq

/-- The C function `child_process`. -/
def child_process (env : ChildEnv) (config : container_config) : ChildRun :=
  let p := Event.printf "Container started with PID %d\n" [.d env.pid]
  let s := setup_container env config
  if s.2 < 0 then
    ⟨p :: s.1 ++ [.fprintf_stderr "Failed to set up container\n" []], .exit EXIT_FAILURE⟩
  else
    let e := Event.execvp config.command config.args
    match env.execvp with
    | none => ⟨p :: s.1 ++ [e], .exec env.command_status⟩
    | some r =>
      if r < 0 then
        ⟨p :: s.1 ++ [e, .perror "Failed to execute command"], .exit EXIT_FAILURE⟩
      else
        ⟨p :: s.1 ++ [e], .ret 0⟩

/-- The order of setup calls as the specification words it: isolate, switch
root, set identity (when a hostname is given), then the three mounts. -/
def spec_setup_sequence (config : container_config) : List Event :=
  [Event.mount none "/" none (MS_PRIVATE ||| MS_REC) none,
   Event.chroot config.rootfs_path,
   Event.chdir "/"]
  ++ (match config.hostname with
      | some h => [Event.sethostname h h.utf8ByteSize]
      | none => [])
  ++ [Event.mount (some "proc") "/proc" (some "proc") 0 none,
      Event.mount (some "sysfs") "/sys" (some "sysfs") 0 none,
      Event.mount (some "tmpfs") "/tmp" (some "tmpfs") 0 (some "size=100m")]

/-! ## The Launcher: `print_usage` and `main` -/

/-- What the operating system answers in the Launcher. -/
structure Env where
  /-- result of `getuid()` -/
  uid : Nat
  /-- outcome of `stat(path, &st)`: `none` when it fails, else the `st_mode` it
  stores -/
  stat : String → Option Nat
  /-- outcome of `malloc(STACK_SIZE)`: `none` for `NULL`, else the address -/
  malloc : Option Nat
  /-- return value of `clone` -/
  clone : Int
  /-- return value of `waitpid` -/
  waitpid : Int
  /-- the operating system as the child sees it -/
  child : ChildEnv

/-- The C function `print_usage`. -/
def print_usage (program_name : String) : List Event :=
  [ .printf "Usage: %s [OPTIONS] <rootfs_path> <command> [args...]\n" [.s program_name],
    .printf "Options:\n" [],
    .printf "  -h, --hostname <hostname>  Set container hostname\n" [],
    .printf "  --help                     Show this help message\n" [],
    .printf "\nExample:\n" [],
    .printf "  %s /path/to/rootfs /bin/bash\n" [.s program_name],
    .printf "  %s -h mycontainer /path/to/rootfs /bin/sh -c \x27echo Hello from container\x27\n"
      [.s program_name] ]

/-- The value of `argv[i]`. -/
def rd (argv : List String) (i : Nat) : String := argv.getD i ""

/-- How the argument handling of `main` ends. -/
inductive ParseEnd
  /-- the function `main` executed `return status` -/
  | returned (status : Int)
  /-- the configuration is complete and `main` goes on -/
  | config (c : container_config)
  /-- the loop was cut off before it finished -/
  | out_of_fuel
deriving DecidableEq

/-- How the `while` loop of `main` ends. -/
inductive LoopEnd
  /-- the function `main` executed `return status` inside the loop -/
  | returned (status : Int)
  /-- the loop was left, by its condition or by `break` -/
  | left (arg_index : Nat) (hostname : Option String)
  /-- the loop was cut off before it finished -/
  | out_of_fuel
deriving DecidableEq

/-- The `while (arg_index < argc)` loop of `main`, one iteration per unit of
fuel; `argc` is `argv.length`. -/
def parse_loop (argv : List String) : Nat → Nat → Option String → List Event × LoopEnd
  | 0, _, _ => ([], .out_of_fuel)
  | fuel + 1, arg_index, hostname =>
    if arg_index < argv.length then
      let a := rd argv arg_index
      if a = "-h" then
        if arg_index + 1 ≥ argv.length then
          ([.argv_read arg_index,
            .fprintf_stderr "Error: -h/--hostname requires a hostname argument\n" []],
           .returned EXIT_FAILURE)
        else
          let r := parse_loop argv fuel (arg_index + 1 + 1) (some (rd argv (arg_index + 1)))
          (.argv_read arg_index :: .argv_read (arg_index + 1) :: r.1, r.2)
      else if a = "--hostname" then
        if arg_index + 1 ≥ argv.length then
          ([.argv_read arg_index, .argv_read arg_index,
            .fprintf_stderr "Error: -h/--hostname requires a hostname argument\n" []],
           .returned EXIT_FAILURE)
        else
          let r := parse_loop argv fuel (arg_index + 1 + 1) (some (rd argv (arg_index + 1)))
          (.argv_read arg_index :: .argv_read arg_index :: .argv_read (arg_index + 1) :: r.1, r.2)
      else if a = "--help" then
        ([.argv_read arg_index, .argv_read arg_index, .argv_read arg_index, .argv_read 0]
           ++ print_usage (rd argv 0),
         .returned EXIT_SUCCESS)
      else
        ([.argv_read arg_index, .argv_read arg_index, .argv_read arg_index],
         .left arg_index hostname)
    else
      ([], .left arg_index hostname)

/-- Lines 124 to 165 of `main`: the argument count check, the option loop and
the positional arguments. -/
def parse_args (argv : List String) : List Event × ParseEnd :=
  if argv.length < 3 then
    (.argv_read 0 :: print_usage (rd argv 0), .returned EXIT_FAILURE)
  else
    let r := parse_loop argv argv.length 1 none
    match r.2 with
    | .out_of_fuel => (r.1, .out_of_fuel)
    | .returned status => (r.1, .returned status)
    | .left arg_index hostname =>
      if arg_index ≥ argv.length then
        (r.1 ++ [.fprintf_stderr "Error: Missing rootfs path\n" [], .argv_read 0]
            ++ print_usage (rd argv 0),
         .returned EXIT_FAILURE)
      else if arg_index + 1 ≥ argv.length then
        (r.1 ++ [.argv_read arg_index,
                 .fprintf_stderr "Error: Missing command to execute\n" [], .argv_read 0]
            ++ print_usage (rd argv 0),
         .returned EXIT_FAILURE)
      else
        (r.1 ++ [.argv_read arg_index, .argv_read (arg_index + 1)],
         .config
           { hostname := hostname,
             rootfs_path := rd argv arg_index,
             command := rd argv (arg_index + 1),
             args := argv.drop (arg_index + 1) })

/-- A run of the Launcher: its events, the value `main` returns (`none` when
the run was cut off), and the child process when `clone` created one. -/
structure Run where
  trace : List Event
  ret : Option Int
  child : Option ChildRun
deriving DecidableEq

/-- Lines 167 to 222 of `main`: privilege check, rootfs check, stack
allocation, `clone`, `waitpid`, release of the stack.  A child that `clone`
created runs `child_process` and terminates by exiting, so that the status
word `waitpid` stores is `W_EXITCODE` of its exit status. -/
def launch (env : Env) (config : container_config) : Run :=
  if env.uid ≠ 0 then
    ⟨[.getuid, .fprintf_stderr "Error: This program must be run as root\n" []],
     some EXIT_FAILURE, none⟩
  else
  match env.stat config.rootfs_path with
  | none =>
    ⟨[.getuid, .stat config.rootfs_path, .perror "Failed to access rootfs path"],
     some EXIT_FAILURE, none⟩
  | some st_mode =>
    if !S_ISDIR st_mode then
      ⟨[.getuid, .stat config.rootfs_path,
        .fprintf_stderr "Error: %s is not a directory\n" [.s config.rootfs_path]],
       some EXIT_FAILURE, none⟩
    else
    let banner : List Event :=
      [.getuid, .stat config.rootfs_path,
       .printf "Starting container...\n" [],
       .printf "Rootfs: %s\n" [.s config.rootfs_path],
       .printf "Command: %s\n" [.s config.command]]
      ++ (match config.hostname with
          | some h => [.printf "Hostname: %s\n" [.s h]]
          | none => [])
    match env.malloc with
    | none =>
      ⟨banner ++ [.malloc STACK_SIZE, .perror "Failed to allocate stack"],
       some EXIT_FAILURE, none⟩
    | some stack =>
      let flags := CLONE_NEWPID ||| CLONE_NEWNS ||| CLONE_NEWUTS ||| CLONE_NEWIPC ||| SIGCHLD
      let child_pid := env.clone
      if child_pid < 0 then
        ⟨banner ++ [.malloc STACK_SIZE, .clone (stack + STACK_SIZE) flags config,
                    .perror "Failed to clone process", .free stack],
         some EXIT_FAILURE, none⟩
      else
      let child := child_process env.child config
      let started : List Event :=
        [.malloc STACK_SIZE, .clone (stack + STACK_SIZE) flags config,
         .printf "Container process started with PID %d\n" [.d child_pid],
         .waitpid child_pid]
      if env.waitpid < 0 then
        ⟨banner ++ started ++ [.perror "Failed to wait for child process", .free stack],
         some EXIT_FAILURE, some child⟩
      else
        let status := W_EXITCODE child.fin.status
        ⟨banner ++ started
           ++ [.printf "Container process exited with status %d\n" [.d (WEXITSTATUS status)],
               .free stack],
         some EXIT_SUCCESS, some child⟩

/-- The C function `main`, with `argc = argv.length`. -/
def main (env : Env) (argv : List String) : Run :=
  let p := parse_args argv
  match p.2 with
  | .returned status => ⟨p.1, some status, none⟩
  | .out_of_fuel => ⟨p.1, none, none⟩
  | .config config =>
    let r := launch env config
    ⟨p.1 ++ r.trace, r.ret, r.child⟩

/-! ## Shapes of argument vectors -/

/-- The tokens that `main` treats as the hostname option. -/
def is_hostname_flag (s : String) : Prop := s = "-h" ∨ s = "--hostname"

/-- The tokens that the option loop of `main` recognises. -/
def is_option_token (s : String) : Prop := s = "-h" ∨ s = "--hostname" ∨ s = "--help"

/-- The argument words of a run of hostname options, each with its value. -/
def option_tokens : List (String × String) → List String
  | [] => []
  | (flag, name) :: rest => flag :: name :: option_tokens rest

/-- The hostname in force after a run of hostname options: the value of the
last one, or the earlier hostname when there is none. -/
def hostname_after : Option String → List (String × String) → Option String
  | h, [] => h
  | _, (_, name) :: rest => hostname_after (some name) rest

/-! ## Concrete environments and configurations -/

/-- An environment of the child in which every call succeeds. -/
def child_env_ok : ChildEnv :=
  { pid := 1, ret := fun _ => 0, execvp := none, command_status := 0 }

/-- An environment of the child in which only the `tmpfs` mount is rejected. -/
def child_env_tmp_rejected : ChildEnv :=
  { pid := 1,
    ret := fun c =>
      if c = Event.mount (some "tmpfs") "/tmp" (some "tmpfs") 0 (some "size=100m") then -1 else 0,
    execvp := none, command_status := 0 }

/-- The configuration of `launch -h box /srv/rootfs /bin/sh`. -/
def config_box : container_config :=
  { hostname := some "box", rootfs_path := "/srv/rootfs", command := "/bin/sh",
    args := ["/bin/sh"] }

/-- An environment of the Launcher in which every call succeeds, the caller is
root and every path is a directory. -/
def env_ok : Env :=
  { uid := 0, stat := fun _ => some 0o040755, malloc := some 4096, clone := 1234,
    waitpid := 1234, child := child_env_ok }

/-- As `env_ok`, but `stat` fails on every path. -/
def env_no_rootfs : Env := { env_ok with stat := fun _ => none }

/-- As `env_ok`, but the caller is not root. -/
def env_not_root : Env := { env_ok with uid := 1000 }

/-- As `env_ok`, but `clone` is rejected. -/
def env_clone_rejected : Env := { env_ok with clone := -1 }

/-- As `env_ok`, but the launched command terminates with exit status 3. -/
def env_command_exits_3 : Env :=
  { env_ok with child := { child_env_ok with command_status := 3 } }

/-- As `env_ok`, but inside the child the `tmpfs` mount is rejected. -/
def env_child_tmp_rejected : Env := { env_ok with child := child_env_tmp_rejected }

/-! ## The child: order of the setup calls -/

/-- C1: when every setup call succeeds, the calls of the child are exactly
mount `/` private and recursive, `chroot(rootfs_path)`, `chdir("/")`,
`sethostname(hostname)` exactly when a hostname is given, mount `proc` at
`/proc`, mount `sysfs` at `/sys`, mount `tmpfs` at `/tmp` with `size=100m`, and
last `execvp(command, args)`; without a hostname the sequence is the same with
the `sethostname` call left out. -/
theorem C1_setup_calls_in_order (env : ChildEnv) (config : container_config)
    (h_root : 0 ≤ env.ret (Event.mount none "/" none (MS_PRIVATE ||| MS_REC) none))
    (h_chroot : 0 ≤ env.ret (Event.chroot config.rootfs_path))
    (h_chdir : 0 ≤ env.ret (Event.chdir "/"))
    (h_host : ∀ h, config.hostname = some h → 0 ≤ env.ret (Event.sethostname h h.utf8ByteSize))
    (h_proc : 0 ≤ env.ret (Event.mount (some "proc") "/proc" (some "proc") 0 none))
    (h_sys : 0 ≤ env.ret (Event.mount (some "sysfs") "/sys" (some "sysfs") 0 none))
    (h_tmp : 0 ≤ env.ret (Event.mount (some "tmpfs") "/tmp" (some "tmpfs") 0 (some "size=100m"))) :
    calls (child_process env config).trace =
        [Event.mount none "/" none (MS_PRIVATE ||| MS_REC) none,
         Event.chroot config.rootfs_path,
         Event.chdir "/"]
        ++ (match config.hostname with
            | some h => [Event.sethostname h h.utf8ByteSize]
            | none => [])
        ++ [Event.mount (some "proc") "/proc" (some "proc") 0 none,
            Event.mount (some "sysfs") "/sys" (some "sysfs") 0 none,
            Event.mount (some "tmpfs") "/tmp" (some "tmpfs") 0 (some "size=100m"),
            Event.execvp config.command config.args]
    ∧ (config.hostname = none →
        calls (child_process env config).trace =
          [Event.mount none "/" none (MS_PRIVATE ||| MS_REC) none,
           Event.chroot config.rootfs_path,
           Event.chdir "/",
           Event.mount (some "proc") "/proc" (some "proc") 0 none,
           Event.mount (some "sysfs") "/sys" (some "sysfs") 0 none,
           Event.mount (some "tmpfs") "/tmp" (some "tmpfs") 0 (some "size=100m"),
           Event.execvp config.command config.args])
    ∧ ((∃ n l, Event.sethostname n l ∈ (child_process env config).trace)
        ↔ config.hostname.isSome = true) := by
  obtain ⟨hn, rp, cmd, args⟩ := config
  have n1 := not_lt.mpr h_root
  have n2 := not_lt.mpr h_chroot
  have n3 := not_lt.mpr h_chdir
  have n5 := not_lt.mpr h_proc
  have n6 := not_lt.mpr h_sys
  have n7 := not_lt.mpr h_tmp
  cases hn with
  | none =>
    cases hx : env.execvp with
    | none =>
      simp [child_process, setup_container, calls, Event.is_call, Event.is_argv_read, Event.is_output, n1, n2, n3, n5, n6, n7, hx]
    | some r =>
      by_cases hr : r < 0 <;>
        simp [child_process, setup_container, calls, Event.is_call, Event.is_argv_read, Event.is_output, n1, n2, n3, n5, n6, n7,
          hx, hr]
  | some h =>
    have n4 := not_lt.mpr (h_host h rfl)
    cases hx : env.execvp with
    | none =>
      simp [child_process, setup_container, calls, Event.is_call, Event.is_argv_read, Event.is_output, n1, n2, n3, n4, n5, n6, n7,
        hx]
    | some r =>
      by_cases hr : r < 0 <;>
        simp [child_process, setup_container, calls, Event.is_call, Event.is_argv_read, Event.is_output, n1, n2, n3, n4, n5, n6,
          n7, hx, hr]

/-- Witness of C1: `launch -h box /srv/rootfs /bin/sh` in an environment where
every call succeeds. -/
theorem C1_setup_calls_in_order_witness :
    calls (child_process child_env_ok config_box).trace =
      [Event.mount none "/" none (MS_PRIVATE ||| MS_REC) none,
       Event.chroot "/srv/rootfs",
       Event.chdir "/",
       Event.sethostname "box" 3,
       Event.mount (some "proc") "/proc" (some "proc") 0 none,
       Event.mount (some "sysfs") "/sys" (some "sysfs") 0 none,
       Event.mount (some "tmpfs") "/tmp" (some "tmpfs") 0 (some "size=100m"),
       Event.execvp "/bin/sh" ["/bin/sh"]] :=
  (C1_setup_calls_in_order child_env_ok config_box (by decide) (by decide) (by decide)
    (fun _ _ => Int.le_refl 0) (by decide) (by decide) (by decide)).1

/-- C2: when at least one setup call fails, the child performs exactly the
setup calls up to and including the first failing one and no later one, never
calls `execvp`, and terminates by `exit(EXIT_FAILURE)`, a non-zero status. -/
theorem C2_first_failure_is_fatal (env : ChildEnv) (config : container_config)
    (h_fail : ∃ c ∈ spec_setup_sequence config, env.ret c < 0) :
    (∃ pre c post,
        spec_setup_sequence config = pre ++ c :: post
        ∧ (∀ x ∈ pre, 0 ≤ env.ret x)
        ∧ env.ret c < 0
        ∧ calls (child_process env config).trace = pre ++ [c])
    ∧ (∀ f a, Event.execvp f a ∉ (child_process env config).trace)
    ∧ (child_process env config).fin = ChildEnd.exit EXIT_FAILURE
    ∧ (child_process env config).fin.status ≠ 0 := by
  obtain ⟨hn, rp, cmd, args⟩ := config
  by_cases h1 : env.ret (Event.mount none "/" none (MS_PRIVATE ||| MS_REC) none) < 0
  · refine ⟨⟨[], _, _, rfl, ?_, h1, ?_⟩, ?_⟩ <;>
      simp [child_process, setup_container, calls, Event.is_call, Event.is_argv_read, Event.is_output, h1, ChildEnd.status,
        EXIT_FAILURE]
  by_cases h2 : env.ret (Event.chroot rp) < 0
  · refine ⟨⟨[_], _, _, rfl, ?_, h2, ?_⟩, ?_⟩ <;>
      simp [child_process, setup_container, calls, Event.is_call, Event.is_argv_read, Event.is_output, h1, h2, ChildEnd.status,
        EXIT_FAILURE, not_lt.mp h1]
  by_cases h3 : env.ret (Event.chdir "/") < 0
  · refine ⟨⟨[_, _], _, _, rfl, ?_, h3, ?_⟩, ?_⟩ <;>
      simp [child_process, setup_container, calls, Event.is_call, Event.is_argv_read, Event.is_output, h1, h2, h3,
        ChildEnd.status, EXIT_FAILURE, not_lt.mp h1, not_lt.mp h2]
  have n1 := not_lt.mp h1
  have n2 := not_lt.mp h2
  have n3 := not_lt.mp h3
  cases hn with
  | none =>
    by_cases h5 : env.ret (Event.mount (some "proc") "/proc" (some "proc") 0 none) < 0
    · refine ⟨⟨[_, _, _], _, _, rfl, ?_, h5, ?_⟩, ?_⟩ <;>
        simp [child_process, setup_container, calls, Event.is_call, Event.is_argv_read, Event.is_output, h1, h2, h3, h5,
          ChildEnd.status, EXIT_FAILURE, n1, n2, n3]
    by_cases h6 : env.ret (Event.mount (some "sysfs") "/sys" (some "sysfs") 0 none) < 0
    · refine ⟨⟨[_, _, _, _], _, _, rfl, ?_, h6, ?_⟩, ?_⟩ <;>
        simp [child_process, setup_container, calls, Event.is_call, Event.is_argv_read, Event.is_output, h1, h2, h3, h5, h6,
          ChildEnd.status, EXIT_FAILURE, n1, n2, n3, not_lt.mp h5]
    by_cases h7 : env.ret
        (Event.mount (some "tmpfs") "/tmp" (some "tmpfs") 0 (some "size=100m")) < 0
    · refine ⟨⟨[_, _, _, _, _], _, _, rfl, ?_, h7, ?_⟩, ?_⟩ <;>
        simp [child_process, setup_container, calls, Event.is_call, Event.is_argv_read, Event.is_output, h1, h2, h3, h5, h6, h7,
          ChildEnd.status, EXIT_FAILURE, n1, n2, n3, not_lt.mp h5, not_lt.mp h6]
    exfalso
    obtain ⟨c, hc, hlt⟩ := h_fail
    simp only [spec_setup_sequence, List.append_nil, List.cons_append, List.nil_append,
      List.mem_cons, List.mem_singleton, List.not_mem_nil, or_false] at hc
    rcases hc with rfl | rfl | rfl | rfl | rfl | rfl <;> contradiction
  | some h =>
    by_cases h4 : env.ret (Event.sethostname h h.utf8ByteSize) < 0
    · refine ⟨⟨[_, _, _], _, _, rfl, ?_, h4, ?_⟩, ?_⟩ <;>
        simp [child_process, setup_container, calls, Event.is_call, Event.is_argv_read, Event.is_output, h1, h2, h3, h4,
          ChildEnd.status, EXIT_FAILURE, n1, n2, n3]
    by_cases h5 : env.ret (Event.mount (some "proc") "/proc" (some "proc") 0 none) < 0
    · refine ⟨⟨[_, _, _, _], _, _, rfl, ?_, h5, ?_⟩, ?_⟩ <;>
        simp [child_process, setup_container, calls, Event.is_call, Event.is_argv_read, Event.is_output, h1, h2, h3, h4, h5,
          ChildEnd.status, EXIT_FAILURE, n1, n2, n3, not_lt.mp h4]
    by_cases h6 : env.ret (Event.mount (some "sysfs") "/sys" (some "sysfs") 0 none) < 0
    · refine ⟨⟨[_, _, _, _, _], _, _, rfl, ?_, h6, ?_⟩, ?_⟩ <;>
        simp [child_process, setup_container, calls, Event.is_call, Event.is_argv_read, Event.is_output, h1, h2, h3, h4, h5, h6,
          ChildEnd.status, EXIT_FAILURE, n1, n2, n3, not_lt.mp h4, not_lt.mp h5]
    by_cases h7 : env.ret
        (Event.mount (some "tmpfs") "/tmp" (some "tmpfs") 0 (some "size=100m")) < 0
    · refine ⟨⟨[_, _, _, _, _, _], _, _, rfl, ?_, h7, ?_⟩, ?_⟩ <;>
        simp [child_process, setup_container, calls, Event.is_call, Event.is_argv_read, Event.is_output, h1, h2, h3, h4, h5, h6,
          h7, ChildEnd.status, EXIT_FAILURE, n1, n2, n3, not_lt.mp h4, not_lt.mp h5,
          not_lt.mp h6]
    exfalso
    obtain ⟨c, hc, hlt⟩ := h_fail
    simp only [spec_setup_sequence, List.append_nil, List.cons_append, List.nil_append,
      List.mem_cons, List.mem_singleton, List.not_mem_nil, or_false] at hc
    rcases hc with rfl | rfl | rfl | rfl | rfl | rfl | rfl <;> contradiction

/-- Witness of C2: only the `tmpfs` mount at `/tmp` is rejected; the command
is never started. -/
theorem C2_first_failure_is_fatal_witness :
    (∀ f a, Event.execvp f a ∉ (child_process child_env_tmp_rejected config_box).trace)
    ∧ (child_process child_env_tmp_rejected config_box).fin = ChildEnd.exit EXIT_FAILURE :=
  have h := C2_first_failure_is_fatal child_env_tmp_rejected config_box
    ⟨Event.mount (some "tmpfs") "/tmp" (some "tmpfs") 0 (some "size=100m"),
      by decide, by decide⟩
  ⟨h.2.1, h.2.2.1⟩

/-! ## The option loop: termination and bounds -/

/-- Every cell of `argv` that the option loop reads lies below `argc`. -/
theorem parse_loop_reads_in_bounds (argv : List String) :
    ∀ (fuel arg_index : Nat) (hostname : Option String) (j : Nat),
      Event.argv_read j ∈ (parse_loop argv fuel arg_index hostname).1 → j < argv.length := by
  intro fuel
  induction fuel with
  | zero => intro i h j hj; simp [parse_loop] at hj
  | succ fuel ih =>
    intro i h j hj
    by_cases h0 : i < argv.length
    · by_cases h1 : rd argv i = "-h"
      · by_cases hb : argv.length ≤ i + 1
        · simp [parse_loop, h0, h1, hb] at hj; omega
        · simp only [parse_loop, h0, h1, hb, if_true, if_false, ge_iff_le, List.mem_cons,
            Event.argv_read.injEq] at hj
          rcases hj with rfl | rfl | hj
          · exact h0
          · omega
          · exact ih _ _ _ hj
      · by_cases h2 : rd argv i = "--hostname"
        · by_cases hb : argv.length ≤ i + 1
          · simp [parse_loop, h0, h2, hb] at hj; omega
          · simp only [parse_loop, if_pos h0, if_neg h1, if_pos h2, if_neg hb, ge_iff_le,
              List.mem_cons, Event.argv_read.injEq] at hj
            rcases hj with rfl | rfl | rfl | hj
            · exact h0
            · exact h0
            · omega
            · exact ih _ _ _ hj
        · by_cases h3 : rd argv i = "--help"
          · simp [parse_loop, h0, h3, print_usage] at hj; omega
          · simp [parse_loop, h0, h1, h2, h3] at hj; omega
    · simp [parse_loop, h0] at hj

/-- The option loop finishes within `argc + 1 - arg_index` iterations. -/
theorem parse_loop_terminates (argv : List String) :
    ∀ (fuel arg_index : Nat) (hostname : Option String),
      arg_index ≤ argv.length → argv.length + 1 ≤ fuel + arg_index →
      (parse_loop argv fuel arg_index hostname).2 ≠ LoopEnd.out_of_fuel := by
  intro fuel
  induction fuel with
  | zero => intro i h h1 h2; omega
  | succ fuel ih =>
    intro i h hle hfuel
    by_cases h0 : i < argv.length
    · by_cases h1 : rd argv i = "-h"
      · by_cases hb : argv.length ≤ i + 1
        · simp [parse_loop, h0, h1, hb]
        · simp only [parse_loop, h0, h1, hb, if_true, if_false, ge_iff_le]
          exact ih _ _ (by omega) (by omega)
      · by_cases h2 : rd argv i = "--hostname"
        · by_cases hb : argv.length ≤ i + 1
          · simp [parse_loop, h0, h2, hb]
          · simp only [parse_loop, if_pos h0, if_neg h1, if_pos h2, if_neg hb, ge_iff_le]
            exact ih _ _ (by omega) (by omega)
        · by_cases h3 : rd argv i = "--help"
          · simp [parse_loop, h0, h3]
          · simp [parse_loop, h0, h1, h2, h3]
    · simp [parse_loop, h0]

/-- Reading the cell right after a known initial segment. -/
theorem rd_append (pre rest : List String) (x : String) :
    rd (pre ++ x :: rest) pre.length = x := by
  induction pre with
  | nil => simp [rd]
  | cons a pre ih => simpa [rd] using ih

/-- Length of the words of a run of options. -/
theorem option_tokens_length (opts : List (String × String)) :
    (option_tokens opts).length = 2 * opts.length := by
  induction opts with
  | nil => rfl
  | cons p r ih => obtain ⟨f, n⟩ := p; simp [option_tokens, ih]; omega

/-- The option loop consumes a run of hostname options, one per iteration. -/
theorem parse_loop_skips_options :
    ∀ (opts : List (String × String)) (pre rest : List String) (fuel : Nat)
      (h : Option String),
      (∀ p ∈ opts, is_hostname_flag p.1) →
      (parse_loop (pre ++ option_tokens opts ++ rest) (opts.length + fuel) pre.length h).2
        = (parse_loop (pre ++ option_tokens opts ++ rest) fuel
            (pre.length + 2 * opts.length) (hostname_after h opts)).2 := by
  intro opts
  induction opts with
  | nil => intro pre rest fuel h _; simp [option_tokens, hostname_after]
  | cons p r ih =>
    intro pre rest fuel h hflag
    obtain ⟨f, n⟩ := p
    have hf : is_hostname_flag f := hflag (f, n) (by simp)
    have hr : ∀ p ∈ r, is_hostname_flag p.1 := fun p hp => hflag p (by simp [hp])
    have e : pre ++ option_tokens ((f, n) :: r) ++ rest
        = (pre ++ [f, n]) ++ option_tokens r ++ rest := by simp [option_tokens]
    have efuel : ((f, n) :: r).length + fuel = (r.length + fuel) + 1 := by
      simp only [List.length_cons]; omega
    have hrd0 : rd (pre ++ [f, n] ++ option_tokens r ++ rest) pre.length = f := by
      have := rd_append pre (n :: (option_tokens r ++ rest)) f
      simpa using this
    have hrd1 : rd (pre ++ [f, n] ++ option_tokens r ++ rest) (pre.length + 1) = n := by
      have := rd_append (pre ++ [f]) (option_tokens r ++ rest) n
      simpa using this
    have hlen : pre.length + 1 < (pre ++ [f, n] ++ option_tokens r ++ rest).length := by
      simp
    have h0 : pre.length < (pre ++ [f, n] ++ option_tokens r ++ rest).length := by omega
    have hb : ¬ (pre ++ [f, n] ++ option_tokens r ++ rest).length ≤ pre.length + 1 := by omega
    have key := ih (pre ++ [f, n]) rest fuel (some n) hr
    have hidx : (pre ++ [f, n]).length = pre.length + 1 + 1 := by simp
    have hidx2 : pre.length + 1 + 1 + 2 * r.length
        = pre.length + 2 * ((f, n) :: r).length := by
      simp only [List.length_cons]; omega
    rw [hidx, hidx2] at key
    rw [e, efuel]
    rcases hf with hf | hf
    · rw [parse_loop, if_pos h0, hrd0, if_pos hf]
      simp only [ge_iff_le, if_neg hb, hrd1]
      exact key
    · have hne : ¬ f = "-h" := by rw [hf]; decide
      rw [parse_loop, if_pos h0, hrd0, if_neg hne, if_pos hf]
      simp only [ge_iff_le, if_neg hb, hrd1]
      exact key

/-- On `prog OPTIONS REST` the option loop of `main` arrives at the first word
of `REST` with fuel to spare. -/
theorem parse_loop_reaches_rest (prog : String) (opts : List (String × String))
    (rest : List String) (hflag : ∀ p ∈ opts, is_hostname_flag p.1) :
    (parse_loop (prog :: (option_tokens opts ++ rest))
        (prog :: (option_tokens opts ++ rest)).length 1 none).2
      = (parse_loop (prog :: (option_tokens opts ++ rest)) (opts.length + rest.length + 1)
          (1 + 2 * opts.length) (hostname_after none opts)).2 := by
  have key := parse_loop_skips_options opts [prog] rest (opts.length + rest.length + 1) none hflag
  simp only [List.singleton_append, List.cons_append, List.length_singleton,
    List.nil_append] at key
  have hlen : (prog :: (option_tokens opts ++ rest)).length
      = opts.length + (opts.length + rest.length + 1) := by
    simp [option_tokens_length]; omega
  rw [hlen]
  exact key

/-- The cell of `prog OPTIONS x REST` at which the option loop arrives. -/
theorem rd_after_options (prog x : String) (opts : List (String × String))
    (rest : List String) :
    rd (prog :: (option_tokens opts ++ x :: rest)) (1 + 2 * opts.length) = x := by
  have := rd_append (prog :: option_tokens opts) rest x
  simp only [List.length_cons, option_tokens_length, List.cons_append] at this
  rw [Nat.add_comm 1]
  exact this

/-- Length of `prog OPTIONS REST`. -/
theorem shape_length (prog : String) (opts : List (String × String)) (rest : List String) :
    (prog :: (option_tokens opts ++ rest)).length = 1 + 2 * opts.length + rest.length := by
  simp [option_tokens_length]; omega

/-- Argument parsing on `prog OPTIONS ROOTFS CMD ARGS`: the configuration. -/
theorem parse_args_config (prog rootfs cmd : String) (opts : List (String × String))
    (args : List String) (hflag : ∀ p ∈ opts, is_hostname_flag p.1)
    (hroot : ¬ is_option_token rootfs) :
    (parse_args (prog :: (option_tokens opts ++ rootfs :: cmd :: args))).2
      = ParseEnd.config
          { hostname := hostname_after none opts, rootfs_path := rootfs, command := cmd,
            args := cmd :: args } := by
  have hlen := shape_length prog opts (rootfs :: cmd :: args)
  simp only [List.length_cons] at hlen
  have h3 : ¬ (prog :: (option_tokens opts ++ rootfs :: cmd :: args)).length < 3 := by
    simp only [List.length_cons]; omega
  have hi : 1 + 2 * opts.length
      < (prog :: (option_tokens opts ++ rootfs :: cmd :: args)).length := by
    simp only [List.length_cons]; omega
  have hr1 : ¬ rootfs = "-h" := fun h => hroot (Or.inl h)
  have hr2 : ¬ rootfs = "--hostname" := fun h => hroot (Or.inr (Or.inl h))
  have hr3 : ¬ rootfs = "--help" := fun h => hroot (Or.inr (Or.inr h))
  have hloop : (parse_loop (prog :: (option_tokens opts ++ rootfs :: cmd :: args))
      (prog :: (option_tokens opts ++ rootfs :: cmd :: args)).length 1 none).2
      = LoopEnd.left (1 + 2 * opts.length) (hostname_after none opts) := by
    rw [parse_loop_reaches_rest prog opts _ hflag, parse_loop, if_pos hi, rd_after_options,
      if_neg hr1, if_neg hr2, if_neg hr3]
  have hcmd : rd (prog :: (option_tokens opts ++ rootfs :: cmd :: args))
      (1 + 2 * opts.length + 1) = cmd := by
    have := rd_append (prog :: option_tokens opts ++ [rootfs]) args cmd
    simp only [List.length_cons, List.length_append, option_tokens_length, List.cons_append,
      List.append_assoc, List.singleton_append, List.length_nil] at this
    rw [Nat.add_comm 1]
    exact this
  have hdrop : (prog :: (option_tokens opts ++ rootfs :: cmd :: args)).drop
      (1 + 2 * opts.length + 1) = cmd :: args := by
    have := List.drop_left (prog :: option_tokens opts ++ [rootfs]) (cmd :: args)
    simp only [List.length_cons, List.length_append, option_tokens_length, List.cons_append,
      List.append_assoc, List.singleton_append, List.length_nil] at this
    rw [Nat.add_comm 1]
    exact this
  have hn1 : ¬ (1 + 2 * opts.length
      ≥ (prog :: (option_tokens opts ++ rootfs :: cmd :: args)).length) := by
    simp only [List.length_cons]; omega
  have hn2 : ¬ (1 + 2 * opts.length + 1
      ≥ (prog :: (option_tokens opts ++ rootfs :: cmd :: args)).length) := by
    simp only [List.length_cons]; omega
  rw [parse_args, if_neg h3]
  simp only [hloop, if_neg hn1, if_neg hn2, rd_after_options, hcmd, hdrop]

/-- Argument parsing on `prog OPTIONS --help REST` with `argc ≥ 3`. -/
theorem parse_args_help (prog : String) (opts : List (String × String)) (rest : List String)
    (hflag : ∀ p ∈ opts, is_hostname_flag p.1)
    (h3 : 3 ≤ (prog :: (option_tokens opts ++ "--help" :: rest)).length) :
    (parse_args (prog :: (option_tokens opts ++ "--help" :: rest))).2
      = ParseEnd.returned EXIT_SUCCESS := by
  have hlen := shape_length prog opts ("--help" :: rest)
  simp only [List.length_cons] at hlen
  have hi : 1 + 2 * opts.length
      < (prog :: (option_tokens opts ++ "--help" :: rest)).length := by
    simp only [List.length_cons]; omega
  have hloop : (parse_loop (prog :: (option_tokens opts ++ "--help" :: rest))
      (prog :: (option_tokens opts ++ "--help" :: rest)).length 1 none).2
      = LoopEnd.returned EXIT_SUCCESS := by
    rw [parse_loop_reaches_rest prog opts _ hflag, parse_loop, if_pos hi, rd_after_options,
      if_neg (by decide), if_neg (by decide), if_pos rfl]
  rw [parse_args, if_neg (by omega)]
  simp only [hloop]

/-- Argument parsing on `prog OPTIONS FLAG`, the hostname option without a
value. -/
theorem parse_args_flag_without_value (prog flag : String) (opts : List (String × String))
    (hflag : ∀ p ∈ opts, is_hostname_flag p.1) (hlast : is_hostname_flag flag) :
    (parse_args (prog :: (option_tokens opts ++ [flag]))).2
      = ParseEnd.returned EXIT_FAILURE := by
  by_cases h3 : (prog :: (option_tokens opts ++ [flag])).length < 3
  · rw [parse_args, if_pos h3]
  have hlen := shape_length prog opts [flag]
  simp only [List.length_cons, List.length_nil] at hlen
  have hi : 1 + 2 * opts.length < (prog :: (option_tokens opts ++ [flag])).length := by
    simp only [List.length_cons]; omega
  have hb : 1 + 2 * opts.length + 1 ≥ (prog :: (option_tokens opts ++ [flag])).length := by
    simp only [List.length_cons]; omega
  have hloop : (parse_loop (prog :: (option_tokens opts ++ [flag]))
      (prog :: (option_tokens opts ++ [flag])).length 1 none).2
      = LoopEnd.returned EXIT_FAILURE := by
    rw [parse_loop_reaches_rest prog opts _ hflag, parse_loop, if_pos hi, rd_after_options]
    rcases hlast with hf | hf
    · rw [if_pos hf, if_pos hb]
    · have hne : ¬ flag = "-h" := by rw [hf]; decide
      rw [if_neg hne, if_pos hf, if_pos hb]
  rw [parse_args, if_neg h3]
  simp only [hloop]

/-- Argument parsing on `prog OPTIONS`, no rootfs path. -/
theorem parse_args_missing_rootfs (prog : String) (opts : List (String × String))
    (hflag : ∀ p ∈ opts, is_hostname_flag p.1) :
    (parse_args (prog :: option_tokens opts)).2 = ParseEnd.returned EXIT_FAILURE := by
  by_cases h3 : (prog :: option_tokens opts).length < 3
  · rw [parse_args, if_pos h3]
  have hlen := shape_length prog opts []
  simp only [List.length_nil, List.append_nil] at hlen
  have hi : ¬ 1 + 2 * opts.length < (prog :: option_tokens opts).length := by omega
  have hge : 1 + 2 * opts.length ≥ (prog :: option_tokens opts).length := by omega
  have hloop : (parse_loop (prog :: option_tokens opts)
      (prog :: option_tokens opts).length 1 none).2
      = LoopEnd.left (1 + 2 * opts.length) (hostname_after none opts) := by
    have key := parse_loop_reaches_rest prog opts [] hflag
    simp only [List.append_nil] at key
    rw [key, parse_loop, if_neg hi]
  rw [parse_args, if_neg h3]
  simp only [hloop, if_pos hge]

/-- Argument parsing on `prog OPTIONS ROOTFS`, no command. -/
theorem parse_args_missing_command (prog rootfs : String) (opts : List (String × String))
    (hflag : ∀ p ∈ opts, is_hostname_flag p.1) (hroot : ¬ is_option_token rootfs) :
    (parse_args (prog :: (option_tokens opts ++ [rootfs]))).2
      = ParseEnd.returned EXIT_FAILURE := by
  by_cases h3 : (prog :: (option_tokens opts ++ [rootfs])).length < 3
  · rw [parse_args, if_pos h3]
  have hlen := shape_length prog opts [rootfs]
  simp only [List.length_cons, List.length_nil] at hlen
  have hi : 1 + 2 * opts.length < (prog :: (option_tokens opts ++ [rootfs])).length := by
    simp only [List.length_cons]; omega
  have hn1 : ¬ (1 + 2 * opts.length ≥ (prog :: (option_tokens opts ++ [rootfs])).length) := by
    simp only [List.length_cons]; omega
  have hb : 1 + 2 * opts.length + 1 ≥ (prog :: (option_tokens opts ++ [rootfs])).length := by
    simp only [List.length_cons]; omega
  have hr1 : ¬ rootfs = "-h" := fun h => hroot (Or.inl h)
  have hr2 : ¬ rootfs = "--hostname" := fun h => hroot (Or.inr (Or.inl h))
  have hr3 : ¬ rootfs = "--help" := fun h => hroot (Or.inr (Or.inr h))
  have hloop : (parse_loop (prog :: (option_tokens opts ++ [rootfs]))
      (prog :: (option_tokens opts ++ [rootfs])).length 1 none).2
      = LoopEnd.left (1 + 2 * opts.length) (hostname_after none opts) := by
    rw [parse_loop_reaches_rest prog opts _ hflag, parse_loop, if_pos hi, rd_after_options,
      if_neg hr1, if_neg hr2, if_neg hr3]
  rw [parse_args, if_neg h3]
  simp only [hloop, if_neg hn1, if_pos hb]

/-- Dropping diagnostics and reads of `argv` commutes with concatenation. -/
theorem calls_append (a b : List Event) : calls (a ++ b) = calls a ++ calls b := by
  simp [calls]

/-- The usage text is made of diagnostics only. -/
theorem calls_print_usage (prog : String) : calls (print_usage prog) = [] := by
  simp [calls, print_usage, Event.is_call, Event.is_argv_read, Event.is_output]

/-- Argument handling makes no call into the operating system: its events are
reads of `argv` and diagnostics only. -/
theorem parse_loop_no_calls (argv : List String) :
    ∀ (fuel arg_index : Nat) (hostname : Option String),
      calls (parse_loop argv fuel arg_index hostname).1 = [] := by
  intro fuel
  induction fuel with
  | zero => intro i h; simp [parse_loop, calls]
  | succ fuel ih =>
    intro i h
    have ih2 := ih (i + 1 + 1) (some (rd argv (i + 1)))
    by_cases h0 : i < argv.length
    · by_cases h1 : rd argv i = "-h"
      · by_cases hb : argv.length ≤ i + 1
        · simp [parse_loop, h0, h1, hb, calls, Event.is_call, Event.is_argv_read, Event.is_output]
        · simp only [parse_loop, if_pos h0, if_pos h1, if_neg hb, ge_iff_le]
          simpa [calls, Event.is_call, Event.is_argv_read, Event.is_output] using ih2
      · by_cases h2 : rd argv i = "--hostname"
        · by_cases hb : argv.length ≤ i + 1
          · simp [parse_loop, h0, h2, hb, calls, Event.is_call, Event.is_argv_read, Event.is_output]
          · simp only [parse_loop, if_pos h0, if_neg h1, if_pos h2, if_neg hb, ge_iff_le]
            simpa [calls, Event.is_call, Event.is_argv_read, Event.is_output] using ih2
        · by_cases h3 : rd argv i = "--help"
          · simp [parse_loop, h0, h3, calls, Event.is_call, Event.is_argv_read, Event.is_output, print_usage]
          · simp [parse_loop, h0, h1, h2, h3, calls, Event.is_call, Event.is_argv_read, Event.is_output]
    · simp [parse_loop, h0, calls]

/-- Argument handling makes no call into the operating system. -/
theorem parse_args_no_calls (argv : List String) : calls (parse_args argv).1 = [] := by
  have hl := parse_loop_no_calls argv argv.length 1 none
  have hu := calls_print_usage (rd argv 0)
  rw [parse_args]
  split_ifs with h3
  · simp [calls, Event.is_call, Event.is_argv_read, Event.is_output, print_usage]
  · simp only []
    split
    · exact hl
    · exact hl
    · split_ifs
      · rw [calls_append, calls_append, hl, hu]; simp [calls, Event.is_call, Event.is_argv_read, Event.is_output]
      · rw [calls_append, calls_append, hl, hu]; simp [calls, Event.is_call, Event.is_argv_read, Event.is_output]
      · rw [calls_append, hl]; simp [calls, Event.is_call, Event.is_argv_read, Event.is_output]

/-! ## The Launcher after argument handling -/

/-- Once the configuration is complete, `main` goes on with the launch. -/
theorem main_of_config (env : Env) (argv : List String) (config : container_config)
    (h : (parse_args argv).2 = ParseEnd.config config) :
    main env argv
      = ⟨(parse_args argv).1 ++ (launch env config).trace, (launch env config).ret,
          (launch env config).child⟩ := by
  simp only [main, h]

/-- When `main` returns during argument handling, that is the whole run. -/
theorem main_of_returned (env : Env) (argv : List String) (status : Int)
    (h : (parse_args argv).2 = ParseEnd.returned status) :
    main env argv = ⟨(parse_args argv).1, some status, none⟩ := by
  simp only [main, h]

/-- The calls of a run of `main` are those of the launch. -/
theorem calls_main_of_config (env : Env) (argv : List String) (config : container_config)
    (h : (parse_args argv).2 = ParseEnd.config config) :
    calls (main env argv).trace = calls (launch env config).trace := by
  rw [main_of_config env argv config h, calls_append, parse_args_no_calls, List.nil_append]

/-- C5: for a root caller with rootfs path and command supplied, when `stat` of
the rootfs path fails or the path is not a directory, `main` returns a non-zero
status, its only calls are `getuid` and `stat`, so neither the stack
allocation nor `clone` is called, and no child process exists. -/
theorem C5_invalid_rootfs_fails_before_clone (env : Env) (argv : List String)
    (config : container_config)
    (h_args : (parse_args argv).2 = ParseEnd.config config)
    (h_root : env.uid = 0)
    (h_stat : env.stat config.rootfs_path = none
      ∨ ∃ st_mode, env.stat config.rootfs_path = some st_mode ∧ S_ISDIR st_mode = false) :
    (main env argv).ret = some EXIT_FAILURE
    ∧ EXIT_FAILURE ≠ 0
    ∧ calls (main env argv).trace = [Event.getuid, Event.stat config.rootfs_path]
    ∧ (∀ size, Event.malloc size ∉ (main env argv).trace)
    ∧ (∀ stack_top flags arg, Event.clone stack_top flags arg ∉ (main env argv).trace)
    ∧ (main env argv).child = none := by
  have hcalls : calls (main env argv).trace = [Event.getuid, Event.stat config.rootfs_path] := by
    rw [calls_main_of_config env argv config h_args]
    rcases h_stat with h | ⟨m, h, hd⟩
    · simp [launch, h_root, h, calls, Event.is_call, Event.is_argv_read, Event.is_output]
    · simp [launch, h_root, h, hd, calls, Event.is_call, Event.is_argv_read, Event.is_output]
  have hno : ∀ e, e.is_call = true → e ≠ Event.getuid → e ≠ Event.stat config.rootfs_path →
      e ∉ (main env argv).trace := by
    intro e he h1 h2 hmem
    have : e ∈ calls (main env argv).trace := by
      unfold calls; exact List.mem_filter.mpr ⟨hmem, he⟩
    rw [hcalls] at this
    simp at this
    rcases this with h | h
    · exact h1 h
    · exact h2 h
  refine ⟨?_, by decide, hcalls, ?_, ?_, ?_⟩
  · rw [main_of_config env argv config h_args]
    rcases h_stat with h | ⟨m, h, hd⟩
    · simp [launch, h_root, h]
    · simp [launch, h_root, h, hd]
  · intro size; exact hno _ rfl (by simp) (by simp)
  · intro a b c; exact hno _ rfl (by simp) (by simp)
  · rw [main_of_config env argv config h_args]
    rcases h_stat with h | ⟨m, h, hd⟩
    · simp [launch, h_root, h]
    · simp [launch, h_root, h, hd]

/-- Witness of C5: `launch /nonexistent /bin/sh`. -/
theorem C5_invalid_rootfs_fails_before_clone_witness :
    (main env_no_rootfs ["launch", "/nonexistent", "/bin/sh"]).ret = some EXIT_FAILURE
    ∧ calls (main env_no_rootfs ["launch", "/nonexistent", "/bin/sh"]).trace
        = [Event.getuid, Event.stat "/nonexistent"]
    ∧ (main env_no_rootfs ["launch", "/nonexistent", "/bin/sh"]).child = none :=
  have h := C5_invalid_rootfs_fails_before_clone env_no_rootfs
    ["launch", "/nonexistent", "/bin/sh"]
    { hostname := none, rootfs_path := "/nonexistent", command := "/bin/sh",
      args := ["/bin/sh"] }
    (by decide) (by decide) (Or.inl rfl)
  ⟨h.1, h.2.2.1, h.2.2.2.2.2⟩

/-- C6: with rootfs path and command supplied and a caller whose uid is not 0,
`main` returns a non-zero status and its only call is `getuid`: no `clone`,
`mount`, `chroot`, `sethostname`, `stat` or `malloc` call is made and no child
process exists. -/
theorem C6_not_root_fails_before_any_call (env : Env) (argv : List String)
    (config : container_config)
    (h_args : (parse_args argv).2 = ParseEnd.config config)
    (h_uid : env.uid ≠ 0) :
    (main env argv).ret = some EXIT_FAILURE
    ∧ EXIT_FAILURE ≠ 0
    ∧ calls (main env argv).trace = [Event.getuid]
    ∧ (∀ stack_top flags arg, Event.clone stack_top flags arg ∉ (main env argv).trace)
    ∧ (∀ src tgt fs flags data, Event.mount src tgt fs flags data ∉ (main env argv).trace)
    ∧ (∀ path, Event.chroot path ∉ (main env argv).trace)
    ∧ (∀ name len, Event.sethostname name len ∉ (main env argv).trace)
    ∧ (∀ path, Event.stat path ∉ (main env argv).trace)
    ∧ (∀ size, Event.malloc size ∉ (main env argv).trace)
    ∧ (main env argv).child = none := by
  have hcalls : calls (main env argv).trace = [Event.getuid] := by
    rw [calls_main_of_config env argv config h_args]
    simp [launch, h_uid, calls, Event.is_call, Event.is_argv_read, Event.is_output]
  have hno : ∀ e, e.is_call = true → e ≠ Event.getuid → e ∉ (main env argv).trace := by
    intro e he h1 hmem
    have : e ∈ calls (main env argv).trace := by
      unfold calls; exact List.mem_filter.mpr ⟨hmem, he⟩
    rw [hcalls] at this
    simp at this
    exact h1 this
  refine ⟨?_, by decide, hcalls, ?_, ?_, ?_, ?_, ?_, ?_, ?_⟩
  · rw [main_of_config env argv config h_args]; simp [launch, h_uid]
  · intro a b c; exact hno _ rfl (by simp)
  · intro a b c d e; exact hno _ rfl (by simp)
  · intro a; exact hno _ rfl (by simp)
  · intro a b; exact hno _ rfl (by simp)
  · intro a; exact hno _ rfl (by simp)
  · intro a; exact hno _ rfl (by simp)
  · rw [main_of_config env argv config h_args]; simp [launch, h_uid]

/-- Witness of C6: `launch /srv/rootfs /bin/sh` run by uid 1000. -/
theorem C6_not_root_fails_before_any_call_witness :
    (main env_not_root ["launch", "/srv/rootfs", "/bin/sh"]).ret = some EXIT_FAILURE
    ∧ calls (main env_not_root ["launch", "/srv/rootfs", "/bin/sh"]).trace = [Event.getuid] :=
  have h := C6_not_root_fails_before_any_call env_not_root
    ["launch", "/srv/rootfs", "/bin/sh"]
    { hostname := none, rootfs_path := "/srv/rootfs", command := "/bin/sh",
      args := ["/bin/sh"] }
    (by decide) (by decide)
  ⟨h.1, h.2.2.1⟩

/-- C7: when the stack allocation succeeds, the calls of `main` are `getuid`,
`stat`, `malloc`, `clone`, then `waitpid` exactly when `clone` succeeded, and
last `free(stack)`: the stack is released exactly once on each of the three
exit paths, it is the last event before `main` returns, and after a successful
`clone` the events before it contain `waitpid` and no `free`. -/
theorem C7_stack_released_once (env : Env) (argv : List String) (config : container_config)
    (st_mode stack : Nat)
    (h_args : (parse_args argv).2 = ParseEnd.config config)
    (h_root : env.uid = 0)
    (h_stat : env.stat config.rootfs_path = some st_mode)
    (h_dir : S_ISDIR st_mode = true)
    (h_alloc : env.malloc = some stack) :
    calls (main env argv).trace
      = [Event.getuid, Event.stat config.rootfs_path, Event.malloc STACK_SIZE,
         Event.clone (stack + STACK_SIZE)
           (CLONE_NEWPID ||| CLONE_NEWNS ||| CLONE_NEWUTS ||| CLONE_NEWIPC ||| SIGCHLD) config]
        ++ (if env.clone < 0 then [] else [Event.waitpid env.clone])
        ++ [Event.free stack]
    ∧ (main env argv).trace.count (Event.free stack) = 1
    ∧ (∀ ptr, Event.free ptr ∈ (main env argv).trace → ptr = stack)
    ∧ (main env argv).trace.getLast? = some (Event.free stack)
    ∧ (∃ status, (main env argv).ret = some status)
    ∧ (0 ≤ env.clone →
        Event.waitpid env.clone ∈ (main env argv).trace.dropLast
        ∧ ∀ ptr, Event.free ptr ∉ (main env argv).trace.dropLast) := by
  have hcalls := calls_main_of_config env argv config h_args
  have hfree : ∀ ptr, Event.free ptr ∉ (parse_args argv).1 := by
    intro ptr hmem
    have : Event.free ptr ∈ calls (parse_args argv).1 := by
      unfold calls; exact List.mem_filter.mpr ⟨hmem, rfl⟩
    rw [parse_args_no_calls] at this
    simp at this
  have hcount : List.count (Event.free stack) (parse_args argv).1 = 0 :=
    List.count_eq_zero_of_not_mem (hfree stack)
  rw [hcalls]
  rw [main_of_config env argv config h_args]
  by_cases hc : env.clone < 0
  · have hc2 : ¬ 0 ≤ env.clone := not_le.mpr hc
    cases hn : config.hostname <;>
      simp [launch, h_root, h_stat, h_dir, h_alloc, hc, hc2, hn, calls, Event.is_call,
        Event.is_argv_read, Event.is_output, List.count_append, List.getLast?_append, List.dropLast_append_of_ne_nil, hfree, hcount]
  · have hc2 : 0 ≤ env.clone := not_lt.mp hc
    by_cases hw : env.waitpid < 0 <;> cases hn : config.hostname <;>
      simp [launch, h_root, h_stat, h_dir, h_alloc, hc, hc2, hw, hn, calls, Event.is_call,
        Event.is_argv_read, Event.is_output, List.count_append, List.getLast?_append, List.dropLast_append_of_ne_nil, hfree, hcount]

/-- Witness of C7: `clone` is rejected; the stack is released once, last. -/
theorem C7_stack_released_once_witness :
    calls (main env_clone_rejected ["launch", "/srv/rootfs", "/bin/sh"]).trace
      = [Event.getuid, Event.stat "/srv/rootfs", Event.malloc STACK_SIZE,
         Event.clone (4096 + STACK_SIZE)
           (CLONE_NEWPID ||| CLONE_NEWNS ||| CLONE_NEWUTS ||| CLONE_NEWIPC ||| SIGCHLD)
           { hostname := none, rootfs_path := "/srv/rootfs", command := "/bin/sh",
             args := ["/bin/sh"] },
         Event.free 4096]
    ∧ (main env_clone_rejected ["launch", "/srv/rootfs", "/bin/sh"]).trace.count
        (Event.free 4096) = 1 :=
  have h := C7_stack_released_once env_clone_rejected ["launch", "/srv/rootfs", "/bin/sh"]
    { hostname := none, rootfs_path := "/srv/rootfs", command := "/bin/sh",
      args := ["/bin/sh"] }
    0o040755 4096 (by decide) (by decide) rfl (by decide) rfl
  ⟨h.1, h.2.1⟩

/-! ## Exit statuses -/

/-- The macro `WEXITSTATUS` recovers the low eight bits of an exit code from the status
word. -/
theorem WEXITSTATUS_small : ∀ n : Nat, n < 256 → WEXITSTATUS (n <<< 8) = n := by
  intro n hn
  unfold WEXITSTATUS
  interval_cases n <;> rfl

/-- The status `main` prints is the exit status of the child modulo 256. -/
theorem WEXITSTATUS_W_EXITCODE (code : Int) :
    ((WEXITSTATUS (W_EXITCODE code) : Nat) : Int) = code % 256 := by
  have h0 : 0 ≤ code % 256 := Int.emod_nonneg _ (by decide)
  have h1 : code % 256 < 256 := Int.emod_lt_of_pos _ (by decide)
  have hn : (code % 256).toNat < 256 := by omega
  unfold W_EXITCODE
  rw [WEXITSTATUS_small _ hn]
  exact Int.toNat_of_nonneg h0

/-- A failing setup call makes `setup_container` return `-1`. -/
theorem setup_container_fails (env : ChildEnv) (config : container_config)
    (h : ∃ c ∈ spec_setup_sequence config, env.ret c < 0) :
    (setup_container env config).2 = -1 := by
  obtain ⟨hn, rp, cmd, args⟩ := config
  obtain ⟨c, hc, hlt⟩ := h
  cases hn with
  | none =>
    simp only [spec_setup_sequence, List.append_nil, List.cons_append, List.nil_append,
      List.mem_cons, List.mem_singleton, List.not_mem_nil, or_false] at hc
    simp only [setup_container]
    split_ifs <;> first | rfl | (exfalso; rcases hc with rfl | rfl | rfl | rfl | rfl | rfl <;> simp_all)
  | some h =>
    simp only [spec_setup_sequence, List.append_nil, List.cons_append, List.nil_append,
      List.mem_cons, List.mem_singleton, List.not_mem_nil, or_false] at hc
    simp only [setup_container]
    split_ifs <;> first | rfl | (exfalso; rcases hc with rfl | rfl | rfl | rfl | rfl | rfl | rfl <;> simp_all)

/-- The child ends by `exit(EXIT_FAILURE)` when a setup call fails or when
`execvp` returns a negative value. -/
theorem child_process_exits_on_failure (env : ChildEnv) (config : container_config)
    (h : (∃ c ∈ spec_setup_sequence config, env.ret c < 0)
      ∨ ∃ r, env.execvp = some r ∧ r < 0) :
    (child_process env config).fin = ChildEnd.exit EXIT_FAILURE := by
  rcases h with h | ⟨r, hx, hr⟩
  · have := setup_container_fails env config h
    simp [child_process, this]
  · simp only [child_process, hx, hr]
    split_ifs <;> rfl

/-- C3, as stated, fails: on `launch /srv/rootfs /bin/false`, where the child is
created and waited for and the command terminates with exit status 3, `main`
returns 0 and not 3. -/
theorem C3_counterexample_status_not_mirrored :
    ((main env_command_exits_3 ["launch", "/srv/rootfs", "/bin/false"]).child.map
        ChildRun.fin) = some (ChildEnd.exec 3)
    ∧ (main env_command_exits_3 ["launch", "/srv/rootfs", "/bin/false"]).ret = some 0
    ∧ (main env_command_exits_3 ["launch", "/srv/rootfs", "/bin/false"]).ret ≠ some 3 := by
  decide

/-- C3, amended: when the child is created and waited for, `main` prints the
exit status of the child (modulo 256) in its last diagnostic and returns
`EXIT_SUCCESS`, whatever that status is; the value returned equals the status
of the launched command exactly when that status is 0. -/
theorem C3_status_reported_success_returned (env : Env) (argv : List String)
    (config : container_config) (st_mode stack : Nat)
    (h_args : (parse_args argv).2 = ParseEnd.config config)
    (h_root : env.uid = 0)
    (h_stat : env.stat config.rootfs_path = some st_mode)
    (h_dir : S_ISDIR st_mode = true)
    (h_alloc : env.malloc = some stack)
    (h_clone : 0 ≤ env.clone)
    (h_wait : 0 ≤ env.waitpid) :
    (main env argv).ret = some EXIT_SUCCESS
    ∧ (main env argv).child = some (child_process env.child config)
    ∧ Event.printf "Container process exited with status %d\n"
        [Arg.d ((child_process env.child config).fin.status % 256)] ∈ (main env argv).trace
    ∧ (∀ s : Nat, (child_process env.child config).fin = ChildEnd.exec s →
        Event.printf "Container process exited with status %d\n" [Arg.d ((s : Int) % 256)]
          ∈ (main env argv).trace
        ∧ ((main env argv).ret = some (s : Int) ↔ s = 0)) := by
  have hc : ¬ env.clone < 0 := not_lt.mpr h_clone
  have hw : ¬ env.waitpid < 0 := not_lt.mpr h_wait
  have hret : (main env argv).ret = some EXIT_SUCCESS := by
    rw [main_of_config env argv config h_args]
    simp [launch, h_root, h_stat, h_dir, h_alloc, hc, hw]
  have hprint : Event.printf "Container process exited with status %d\n"
      [Arg.d ((child_process env.child config).fin.status % 256)] ∈ (main env argv).trace := by
    rw [main_of_config env argv config h_args, ← WEXITSTATUS_W_EXITCODE]
    simp [launch, h_root, h_stat, h_dir, h_alloc, hc, hw]
  refine ⟨hret, ?_, hprint, ?_⟩
  · rw [main_of_config env argv config h_args]
    simp [launch, h_root, h_stat, h_dir, h_alloc, hc, hw]
  · intro s hs
    rw [hs] at hprint
    refine ⟨hprint, ?_⟩
    rw [hret]
    simp [EXIT_SUCCESS]
    omega

/-- Witness of C3, amended: `launch /srv/rootfs /bin/echo hello`, everything
succeeds and the command exits with status 0. -/
theorem C3_status_reported_success_returned_witness :
    (main env_ok ["launch", "/srv/rootfs", "/bin/echo", "hello"]).ret = some EXIT_SUCCESS
    ∧ Event.printf "Container process exited with status %d\n" [Arg.d 0]
        ∈ (main env_ok ["launch", "/srv/rootfs", "/bin/echo", "hello"]).trace :=
  have h := C3_status_reported_success_returned env_ok
    ["launch", "/srv/rootfs", "/bin/echo", "hello"]
    { hostname := none, rootfs_path := "/srv/rootfs", command := "/bin/echo",
      args := ["/bin/echo", "hello"] }
    0o040755 4096 (by decide) (by decide) rfl (by decide) rfl (by decide) (by decide)
  ⟨h.1, h.2.2.1⟩

/-- C4, as stated, fails: on `launch /srv/rootfs /bin/sh`, where the `tmpfs`
mount inside the child is rejected, the child exits with `EXIT_FAILURE` but
`main` returns 0. -/
theorem C4_counterexample_child_failure_returns_zero :
    ((main env_child_tmp_rejected ["launch", "/srv/rootfs", "/bin/sh"]).child.map
        ChildRun.fin) = some (ChildEnd.exit EXIT_FAILURE)
    ∧ (main env_child_tmp_rejected ["launch", "/srv/rootfs", "/bin/sh"]).ret = some 0 := by
  decide

/-- C4, amended: every failure on the side of the Launcher makes `main` return
`EXIT_FAILURE`, which is not zero: too few arguments, a hostname option
without a value, a missing rootfs path, a missing command, a caller that is not
root, a rootfs path that `stat` rejects or that is not a directory, a failed
stack allocation, a rejected `clone`, a failed `waitpid`.  A failing setup call
inside the child, or an `execvp` that fails, makes the child process end by
`exit(EXIT_FAILURE)`. -/
theorem C4_failures_end_with_exit_failure :
    EXIT_FAILURE ≠ 0
    ∧ (∀ (env : Env) (argv : List String), argv.length < 3 →
        (main env argv).ret = some EXIT_FAILURE)
    ∧ (∀ (env : Env) (prog flag : String) (opts : List (String × String)),
        (∀ p ∈ opts, is_hostname_flag p.1) → is_hostname_flag flag →
        (main env (prog :: (option_tokens opts ++ [flag]))).ret = some EXIT_FAILURE)
    ∧ (∀ (env : Env) (prog : String) (opts : List (String × String)),
        (∀ p ∈ opts, is_hostname_flag p.1) →
        (main env (prog :: option_tokens opts)).ret = some EXIT_FAILURE)
    ∧ (∀ (env : Env) (prog rootfs : String) (opts : List (String × String)),
        (∀ p ∈ opts, is_hostname_flag p.1) → ¬ is_option_token rootfs →
        (main env (prog :: (option_tokens opts ++ [rootfs]))).ret = some EXIT_FAILURE)
    ∧ (∀ (env : Env) (argv : List String) (config : container_config),
        (parse_args argv).2 = ParseEnd.config config →
        (env.uid ≠ 0
          ∨ env.stat config.rootfs_path = none
          ∨ (∃ st_mode, env.stat config.rootfs_path = some st_mode ∧ S_ISDIR st_mode = false)
          ∨ env.malloc = none
          ∨ env.clone < 0
          ∨ env.waitpid < 0) →
        (main env argv).ret = some EXIT_FAILURE)
    ∧ (∀ (cenv : ChildEnv) (config : container_config),
        ((∃ c ∈ spec_setup_sequence config, cenv.ret c < 0)
          ∨ ∃ r, cenv.execvp = some r ∧ r < 0) →
        (child_process cenv config).fin = ChildEnd.exit EXIT_FAILURE
        ∧ (child_process cenv config).fin.status ≠ 0) := by
  refine ⟨by decide, ?_, ?_, ?_, ?_, ?_, ?_⟩
  · intro env argv h
    have : (parse_args argv).2 = ParseEnd.returned EXIT_FAILURE := by
      rw [parse_args, if_pos h]
    rw [main_of_returned env argv _ this]
  · intro env prog flag opts hflag hlast
    rw [main_of_returned env _ _ (parse_args_flag_without_value prog flag opts hflag hlast)]
  · intro env prog opts hflag
    rw [main_of_returned env _ _ (parse_args_missing_rootfs prog opts hflag)]
  · intro env prog rootfs opts hflag hroot
    rw [main_of_returned env _ _ (parse_args_missing_command prog rootfs opts hflag hroot)]
  · intro env argv config h_args h
    rw [main_of_config env argv config h_args]
    by_cases hu : env.uid = 0
    · cases hs : env.stat config.rootfs_path with
      | none => simp [launch, hu, hs]
      | some m =>
        by_cases hd : S_ISDIR m = true
        · cases ha : env.malloc with
          | none => simp [launch, hu, hs, hd, ha]
          | some stack =>
            by_cases hc : env.clone < 0
            · simp [launch, hu, hs, hd, ha, hc]
            · by_cases hw : env.waitpid < 0
              · simp [launch, hu, hs, hd, ha, hc, hw]
              · exfalso
                rcases h with h | h | ⟨m2, h, h2⟩ | h | h | h
                · exact h hu
                · rw [hs] at h; cases h
                · rw [hs] at h; cases h; rw [hd] at h2; cases h2
                · rw [ha] at h; cases h
                · exact hc h
                · exact hw h
        · simp [launch, hu, hs, hd]
    · simp [launch, hu]
  · intro cenv config h
    have hfin := child_process_exits_on_failure cenv config h
    refine ⟨hfin, ?_⟩
    rw [hfin]
    decide

/-- Witness of C4, amended: `launch -h`, uid 1000, and a child whose `tmpfs`
mount is rejected. -/
theorem C4_failures_end_with_exit_failure_witness :
    (main env_ok ["launch", "-h"]).ret = some EXIT_FAILURE
    ∧ (main env_not_root ["launch", "/srv/rootfs", "/bin/true"]).ret = some EXIT_FAILURE
    ∧ (child_process child_env_tmp_rejected config_box).fin = ChildEnd.exit EXIT_FAILURE :=
  ⟨C4_failures_end_with_exit_failure.2.1 env_ok ["launch", "-h"] (by decide),
   C4_failures_end_with_exit_failure.2.2.2.2.2.1 env_not_root
     ["launch", "/srv/rootfs", "/bin/true"]
     { hostname := none, rootfs_path := "/srv/rootfs", command := "/bin/true",
       args := ["/bin/true"] }
     (by decide) (Or.inl (by decide)),
   (C4_failures_end_with_exit_failure.2.2.2.2.2.2 child_env_tmp_rejected config_box
     (Or.inl ⟨Event.mount (some "tmpfs") "/tmp" (some "tmpfs") 0 (some "size=100m"),
       by decide, by decide⟩)).1⟩

/-! ## Argument handling: help, configuration, bounds -/

/-- With at least three arguments, `--help` in option position makes `main`
print the usage and return `EXIT_SUCCESS` without any call. -/
theorem help_option_succeeds_from_three_arguments (env : Env) (prog : String)
    (opts : List (String × String)) (rest : List String)
    (hflag : ∀ p ∈ opts, is_hostname_flag p.1)
    (h3 : 3 ≤ (prog :: (option_tokens opts ++ "--help" :: rest)).length) :
    (main env (prog :: (option_tokens opts ++ "--help" :: rest))).ret = some EXIT_SUCCESS
    ∧ calls (main env (prog :: (option_tokens opts ++ "--help" :: rest))).trace = []
    ∧ (main env (prog :: (option_tokens opts ++ "--help" :: rest))).child = none := by
  rw [main_of_returned env _ _ (parse_args_help prog opts rest hflag h3)]
  exact ⟨rfl, parse_args_no_calls _, rfl⟩

/-- C8, at the failing input `launch --help`: the argument count check comes
first, so `main` prints the usage, makes no call, and returns `EXIT_FAILURE`
instead of `EXIT_SUCCESS`. -/
theorem C8_help_alone_returns_failure (env : Env) :
    (main env ["launch", "--help"]).ret = some EXIT_FAILURE
    ∧ (main env ["launch", "--help"]).ret ≠ some EXIT_SUCCESS
    ∧ (main env ["launch", "--help"]).trace = Event.argv_read 0 :: print_usage "launch"
    ∧ calls (main env ["launch", "--help"]).trace = []
    ∧ (main env ["launch", "--help"]).child = none := by
  refine ⟨rfl, ?_, rfl, rfl, rfl⟩
  show some EXIT_FAILURE ≠ some EXIT_SUCCESS
  decide

/-- C9: on `prog ROOTFS CMD A1 ... An` and on `prog (-h | --hostname) NAME
ROOTFS CMD A1 ... An`, with `ROOTFS` not an option token and every other word
arbitrary, argument parsing yields the configuration whose hostname is absent,
respectively `NAME`, whose rootfs path is `ROOTFS`, whose command is `CMD` and
whose argument vector is `CMD, A1, ..., An`. -/
theorem C9_arguments_parsed (prog rootfs cmd : String) (args : List String)
    (h_rootfs : ¬ is_option_token rootfs) :
    (parse_args (prog :: rootfs :: cmd :: args)).2
        = ParseEnd.config
            { hostname := none, rootfs_path := rootfs, command := cmd, args := cmd :: args }
    ∧ (∀ flag name : String, is_hostname_flag flag →
        (parse_args (prog :: flag :: name :: rootfs :: cmd :: args)).2
          = ParseEnd.config
              { hostname := some name, rootfs_path := rootfs, command := cmd,
                args := cmd :: args }) := by
  have h0 := parse_args_config prog rootfs cmd [] args (by simp) h_rootfs
  have h1 : ∀ flag name : String, is_hostname_flag flag →
      (parse_args (prog :: flag :: name :: rootfs :: cmd :: args)).2
        = ParseEnd.config
            { hostname := some name, rootfs_path := rootfs, command := cmd,
              args := cmd :: args } := by
    intro flag name hf
    exact parse_args_config prog rootfs cmd [(flag, name)] args
      (by intro p hp; simp at hp; rw [hp]; exact hf) h_rootfs
  exact ⟨h0, h1⟩

/-- Witness of C9: the hostname value and the trailing arguments look like
options and are taken verbatim. -/
theorem C9_arguments_parsed_witness :
    (parse_args ["launch", "-h", "--help", "/srv/rootfs", "/bin/sh", "-h", "--help"]).2
      = ParseEnd.config
          { hostname := some "--help", rootfs_path := "/srv/rootfs", command := "/bin/sh",
            args := ["/bin/sh", "-h", "--help"] } :=
  (C9_arguments_parsed "launch" "/srv/rootfs" "/bin/sh" ["-h", "--help"]
    (by unfold is_option_token; decide)).2 "-h" "--help" (Or.inl rfl)

/-- A cell below `argc` holds the value that `rd` returns. -/
theorem rd_getElem (argv : List String) (j : Nat) (h : j < argv.length) :
    argv[j]? = some (rd argv j) := by
  simp [rd, List.getD_eq_getElem?_getD, List.getElem?_eq_getElem h]

/-- When the option loop is left, the index has not moved backwards and stays
within `argc` when it started there, and the hostname is the initial one or a
cell of `argv` before that index. -/
theorem parse_loop_left (argv : List String) :
    ∀ (fuel i : Nat) (h : Option String) (k : Nat) (h2 : Option String),
      (parse_loop argv fuel i h).2 = LoopEnd.left k h2 →
      i ≤ k ∧ (h2 = h ∨ ∃ j, j < k ∧ j < argv.length ∧ h2 = some (rd argv j)) := by
  intro fuel
  induction fuel with
  | zero => intro i h k h2 hl; simp [parse_loop] at hl
  | succ fuel ih =>
    intro i h k h2 hl
    have step : (parse_loop argv fuel (i + 1 + 1) (some (rd argv (i + 1)))).2
        = LoopEnd.left k h2 → ¬ argv.length ≤ i + 1 →
        i ≤ k ∧ (h2 = h ∨ ∃ j, j < k ∧ j < argv.length ∧ h2 = some (rd argv j)) := by
      intro hrec hb
      obtain ⟨hle, hh⟩ := ih _ _ _ _ hrec
      refine ⟨by omega, Or.inr ?_⟩
      rcases hh with hh | ⟨j, hj1, hj2, hj3⟩
      · exact ⟨i + 1, by omega, by omega, hh⟩
      · exact ⟨j, hj1, hj2, hj3⟩
    by_cases h0 : i < argv.length
    · by_cases h1 : rd argv i = "-h"
      · by_cases hb : argv.length ≤ i + 1
        · simp [parse_loop, h0, h1, hb] at hl
        · simp only [parse_loop, if_pos h0, if_pos h1, if_neg hb, ge_iff_le] at hl
          exact step hl hb
      · by_cases h2x : rd argv i = "--hostname"
        · by_cases hb : argv.length ≤ i + 1
          · simp [parse_loop, h0, h2x, hb] at hl
          · simp only [parse_loop, if_pos h0, if_neg h1, if_pos h2x, if_neg hb, ge_iff_le] at hl
            exact step hl hb
        · by_cases h3 : rd argv i = "--help"
          · simp [parse_loop, h0, h3] at hl
          · simp only [parse_loop, if_pos h0, if_neg h1, if_neg h2x, if_neg h3,
              LoopEnd.left.injEq] at hl
            obtain ⟨rfl, rfl⟩ := hl
            exact ⟨le_refl _, Or.inl rfl⟩
    · simp only [parse_loop, if_neg h0, LoopEnd.left.injEq] at hl
      obtain ⟨rfl, rfl⟩ := hl
      exact ⟨le_refl _, Or.inl rfl⟩

/-- Argument handling always finishes: the fuel `argc` is enough. -/
theorem parse_args_terminates (argv : List String) :
    (parse_args argv).2 ≠ ParseEnd.out_of_fuel := by
  rw [parse_args]
  split_ifs with h3
  · simp
  · have ht := parse_loop_terminates argv argv.length 1 none (by omega) (by omega)
    simp only []
    split
    · next heq => exact absurd heq ht
    · simp
    · split_ifs <;> simp

/-- Every cell of `argv` that argument handling reads lies below `argc`. -/
theorem parse_args_reads_in_bounds (argv : List String) (h1 : 1 ≤ argv.length) (j : Nat)
    (hj : Event.argv_read j ∈ (parse_args argv).1) : j < argv.length := by
  have hl := parse_loop_reads_in_bounds argv argv.length 1 none j
  rw [parse_args] at hj
  split_ifs at hj with h3
  · simp [print_usage] at hj; omega
  · simp only [] at hj
    split at hj
    · exact hl hj
    · exact hl hj
    · split_ifs at hj with ha hb
      · simp only [List.mem_append, print_usage] at hj
        rcases hj with (hj | hj) | hj
        · exact hl hj
        · simp at hj; omega
        · simp at hj
      · simp only [List.mem_append, print_usage] at hj
        rcases hj with (hj | hj) | hj
        · exact hl hj
        · simp at hj; omega
        · simp at hj
      · simp only [List.mem_append] at hj
        rcases hj with hj | hj
        · exact hl hj
        · simp at hj; omega

/-- The launch always returns a status, and reads no cell of `argv`. -/
theorem launch_returns (env : Env) (config : container_config) :
    (∃ status, (launch env config).ret = some status)
    ∧ ∀ j, Event.argv_read j ∉ (launch env config).trace := by
  by_cases hu : env.uid = 0
  · cases hs : env.stat config.rootfs_path with
    | none => simp [launch, hu, hs]
    | some m =>
      by_cases hd : S_ISDIR m = true
      · cases ha : env.malloc with
        | none => cases hn : config.hostname <;> simp [launch, hu, hs, hd, ha, hn]
        | some stack =>
          by_cases hc : env.clone < 0
          · cases hn : config.hostname <;> simp [launch, hu, hs, hd, ha, hc, hn]
          · by_cases hw : env.waitpid < 0 <;> cases hn : config.hostname <;>
              simp [launch, hu, hs, hd, ha, hc, hw, hn]
      · simp [launch, hu, hs, hd]
  · simp [launch, hu]

/-- The cells of `argv` from which a complete configuration is taken. -/
theorem parse_args_config_cells (argv : List String) (config : container_config)
    (h : (parse_args argv).2 = ParseEnd.config config) :
    ∃ i, 1 ≤ i ∧ i + 1 < argv.length
      ∧ config.rootfs_path = rd argv i
      ∧ config.command = rd argv (i + 1)
      ∧ config.args = argv.drop (i + 1)
      ∧ ∀ name, config.hostname = some name → ∃ j, j < i ∧ name = rd argv j := by
  by_cases h3 : argv.length < 3
  · rw [parse_args, if_pos h3] at h; cases h
  rw [parse_args, if_neg h3] at h
  simp only [] at h
  cases heq : (parse_loop argv argv.length 1 none).2 with
  | out_of_fuel => rw [heq] at h; cases h
  | returned status => rw [heq] at h; cases h
  | left k h2 =>
    rw [heq] at h
    obtain ⟨hle, hh⟩ := parse_loop_left argv _ _ _ _ _ heq
    by_cases ha : k ≥ argv.length
    · simp only [if_pos ha] at h; cases h
    by_cases hb : k + 1 ≥ argv.length
    · simp only [if_neg ha, if_pos hb] at h; cases h
    simp only [if_neg ha, if_neg hb, ParseEnd.config.injEq] at h
    subst h
    refine ⟨k, hle, by omega, rfl, rfl, rfl, ?_⟩
    intro name hname
    simp only at hname
    rcases hh with hh | ⟨j, hj1, _, hj3⟩
    · rw [hh] at hname; cases hname
    · rw [hj3] at hname
      exact ⟨j, hj1, (Option.some.inj hname).symm⟩

/-- C10: for `argc ≥ 1` the option loop of `main` terminates, `main` returns,
and every cell of `argv` that is read has an index below `argc`; a trailing
`-h` or `--hostname` without a value is rejected with a non-zero status; the
rootfs path, the command, the argument vector and the hostname of a complete
configuration are cells of `argv` below `argc`. -/
theorem C10_argv_reads_in_bounds (argv : List String) (h_argc : 1 ≤ argv.length) :
    (parse_loop argv argv.length 1 none).2 ≠ LoopEnd.out_of_fuel
    ∧ (parse_args argv).2 ≠ ParseEnd.out_of_fuel
    ∧ (∀ env : Env, ∃ status, (main env argv).ret = some status)
    ∧ (∀ j, Event.argv_read j ∈ (parse_args argv).1 → j < argv.length)
    ∧ (∀ (env : Env) (j : Nat), Event.argv_read j ∈ (main env argv).trace → j < argv.length)
    ∧ (∀ (prog flag : String) (opts : List (String × String)),
        argv = prog :: (option_tokens opts ++ [flag]) →
        (∀ p ∈ opts, is_hostname_flag p.1) → is_hostname_flag flag →
        ∀ env : Env, (main env argv).ret = some EXIT_FAILURE ∧ EXIT_FAILURE ≠ 0)
    ∧ (∀ config, (parse_args argv).2 = ParseEnd.config config →
        ∃ i, i + 1 < argv.length
          ∧ argv[i]? = some config.rootfs_path
          ∧ argv[i + 1]? = some config.command
          ∧ config.args = argv.drop (i + 1)
          ∧ ∀ name, config.hostname = some name →
              ∃ j, j < argv.length ∧ argv[j]? = some name) := by
  refine ⟨parse_loop_terminates argv argv.length 1 none h_argc (by omega),
    parse_args_terminates argv, ?_, parse_args_reads_in_bounds argv h_argc, ?_, ?_, ?_⟩
  · intro env
    cases hp : (parse_args argv).2 with
    | returned status => exact ⟨status, by rw [main_of_returned env argv status hp]⟩
    | config c =>
      obtain ⟨status, hs⟩ := (launch_returns env c).1
      exact ⟨status, by rw [main_of_config env argv c hp]; exact hs⟩
    | out_of_fuel => exact absurd hp (parse_args_terminates argv)
  · intro env j hj
    cases hp : (parse_args argv).2 with
    | returned status =>
      rw [main_of_returned env argv status hp] at hj
      exact parse_args_reads_in_bounds argv h_argc j hj
    | config c =>
      rw [main_of_config env argv c hp] at hj
      rcases List.mem_append.mp hj with hj | hj
      · exact parse_args_reads_in_bounds argv h_argc j hj
      · exact absurd hj ((launch_returns env c).2 j)
    | out_of_fuel => exact absurd hp (parse_args_terminates argv)
  · intro prog flag opts hargv hflag hlast env
    subst hargv
    rw [main_of_returned env _ _ (parse_args_flag_without_value prog flag opts hflag hlast)]
    exact ⟨rfl, by decide⟩
  · intro config hc
    obtain ⟨i, _, hi, h1, h2, h3, h4⟩ := parse_args_config_cells argv config hc
    refine ⟨i, hi, ?_, ?_, h3, ?_⟩
    · rw [h1]; exact rd_getElem argv i (by omega)
    · rw [h2]; exact rd_getElem argv (i + 1) hi
    · intro name hname
      obtain ⟨j, hj, hj2⟩ := h4 name hname
      exact ⟨j, by omega, by rw [hj2]; exact rd_getElem argv j (by omega)⟩

/-- Witness of C10: `launch -h box --hostname`, a trailing hostname option
without a value. -/
theorem C10_argv_reads_in_bounds_witness :
    (parse_args ["launch", "-h", "box", "--hostname"]).2 ≠ ParseEnd.out_of_fuel
    ∧ (∀ j, Event.argv_read j ∈ (parse_args ["launch", "-h", "box", "--hostname"]).1 → j < 4)
    ∧ (main env_ok ["launch", "-h", "box", "--hostname"]).ret = some EXIT_FAILURE :=
  have h := C10_argv_reads_in_bounds ["launch", "-h", "box", "--hostname"] (by decide)
  ⟨h.2.1, h.2.2.2.1,
    (h.2.2.2.2.2.1 "launch" "--hostname" [("-h", "box")] rfl
      (by intro p hp; simp at hp; rw [hp]; exact Or.inl rfl) (Or.inr rfl) env_ok).1⟩

end SimpleContainer
